import Mathlib

/-!
Verification of the loony-dev scheduling/supervision layer.

Shallow embedding of `src/loony_dev`: the label-driven task state machine
(`tasks/*.py`), the orchestrator's discovery/dispatch loop
(`orchestrator.py`), and the supervisor's repo filtering and restart
backoff (`supervisor.py`).  The GitHub tracker is modelled at its §6
interface boundary: label sets and comment lists per item, with
`add_label` / `remove_label` / `post_comment` as state operations.
-/

set_option maxRecDepth 4000

/-! ## Tracker-side data model (`models.py`) -/

/-- `models.py` `Comment`: author, body, creation timestamp, optional
inline path/line. -/
structure Comment where
  author : String
  body : String
  created_at : String
  path : Option String := none
  line : Option Int := none
  deriving Repr, DecidableEq

/-- The label set and comment list the tracker holds for one issue/PR.
Labels behave as a set (GitHub labels are unique per item); comments are
append-only in creation order. -/
structure ItemState where
  labels : List String
  comments : List Comment
  deriving Repr, DecidableEq

/-- `github.add_label`: idempotent insertion into the item's label set. -/
def addLabel (l : String) (ls : List String) : List String :=
  if l ∈ ls then ls else ls ++ [l]

/-- `github.remove_label`: removes the label from the item's label set. -/
def removeLabel (l : String) (ls : List String) : List String :=
  ls.filter (fun x => x ≠ l)

theorem mem_addLabel {x l : String} {ls : List String} :
    x ∈ addLabel l ls ↔ x ∈ ls ∨ x = l := by
  unfold addLabel
  by_cases h : l ∈ ls <;> simp [h]
  rintro rfl; exact h

theorem mem_removeLabel {x l : String} {ls : List String} :
    x ∈ removeLabel l ls ↔ x ∈ ls ∧ x ≠ l := by
  unfold removeLabel
  simp

/-- The three workflow labels of §4.3 / `github.REQUIRED_LABELS`. -/
def countActive (ls : List String) : Nat :=
  (if "in-progress" ∈ ls then 1 else 0)
  + (if "ready-for-planning" ∈ ls then 1 else 0)
  + (if "ready-for-development" ∈ ls then 1 else 0)

example : countActive ["in-progress", "bug"] = 1 := by decide
example : addLabel "a" ["a"] = ["a"] := by decide

/-- The fields of the `PullRequest` dataclass in `models.py` lines
29-34 - the keyword arguments its generated constructor accepts and the
attributes its instances carry. -/
def pullRequestFields : List String := ["number", "branch", "title", "new_comments"]

/-- The fields of the `Issue` dataclass in `models.py` lines 13-17. -/
def issueFields : List String := ["number", "title", "body"]

/-! ## Task reconciliation hooks (per-variant `on_start` / `on_complete` /
`on_failure`, transcribed from `tasks/*.py`).

Each hook is a transformation of the tracked item's `ItemState`.  `bot`
is the authenticated bot login under which `github.post_comment` posts;
`summary` is `result.summary`, `err` the stringified exception. -/

/-- `tasks/planning_task.py` `PLAN_MARKER`. -/
def PLAN_MARKER : String := "<!-- loony-plan -->"

namespace IssueTask

/-- `issue_task.py` `on_start`: remove `ready-for-development`, add
`in-progress`. -/
def on_start (s : ItemState) : ItemState :=
  { s with labels := addLabel "in-progress" (removeLabel "ready-for-development" s.labels) }

/-- `issue_task.py` `on_complete`: remove `in-progress`, post
"Implementation complete." comment. -/
def on_complete (bot summary : String) (s : ItemState) : ItemState :=
  { s with labels := removeLabel "in-progress" s.labels,
           comments := s.comments ++ [⟨bot, "Implementation complete.\n\n" ++ summary, "", none, none⟩] }

/-- `issue_task.py` `on_failure`: remove `in-progress`, restore
`ready-for-development`, post failure comment. -/
def on_failure (bot err : String) (s : ItemState) : ItemState :=
  { s with labels := addLabel "ready-for-development" (removeLabel "in-progress" s.labels),
           comments := s.comments ++ [⟨bot, "Implementation failed: " ++ err, "", none, none⟩] }

end IssueTask

namespace PRReviewTask

/-- `pr_review_task.py` `on_start`: add `in-progress`. -/
def on_start (s : ItemState) : ItemState :=
  { s with labels := addLabel "in-progress" s.labels }

/-- `pr_review_task.py` `on_complete`: remove `in-progress`, post
summary comment. -/
def on_complete (bot summary : String) (s : ItemState) : ItemState :=
  { s with labels := removeLabel "in-progress" s.labels,
           comments := s.comments ++ [⟨bot, "Review comments addressed.\n\n" ++ summary, "", none, none⟩] }

/-- `pr_review_task.py` `on_failure`: remove `in-progress`, post error
comment. -/
def on_failure (bot err : String) (s : ItemState) : ItemState :=
  { s with labels := removeLabel "in-progress" s.labels,
           comments := s.comments ++ [⟨bot, "Failed to address review comments: " ++ err, "", none, none⟩] }

end PRReviewTask

namespace ConflictResolutionTask

/-- `conflict_task.py` `on_start`: add `in-progress`. -/
def on_start (s : ItemState) : ItemState :=
  { s with labels := addLabel "in-progress" s.labels }

/-- `conflict_task.py` `on_complete`: remove `in-progress`, post summary
comment. -/
def on_complete (bot summary : String) (s : ItemState) : ItemState :=
  { s with labels := removeLabel "in-progress" s.labels,
           comments := s.comments ++ [⟨bot, "Merge conflicts resolved.\n\n" ++ summary, "", none, none⟩] }

/-- `conflict_task.py` `on_failure`: remove `in-progress`, post error
comment. -/
def on_failure (bot err : String) (s : ItemState) : ItemState :=
  { s with labels := removeLabel "in-progress" s.labels,
           comments := s.comments ++ [⟨bot, "Failed to resolve merge conflicts: " ++ err ++ "\n\nManual intervention is required.", "", none, none⟩] }

end ConflictResolutionTask

namespace PlanningTask

/-- `planning_task.py` `on_start`: log only — labels untouched. -/
def on_start (s : ItemState) : ItemState := s

/-- `planning_task.py` `on_complete`: post the plan comment prefixed by
`PLAN_MARKER`; no label change. -/
def on_complete (bot summary : String) (s : ItemState) : ItemState :=
  { s with comments := s.comments ++ [⟨bot, PLAN_MARKER ++ "\n\n" ++ summary, "", none, none⟩] }

/-- `planning_task.py` `on_failure`: post failure comment; no label
change. -/
def on_failure (bot err : String) (s : ItemState) : ItemState :=
  { s with comments := s.comments ++ [⟨bot, "Planning failed: " ++ err, "", none, none⟩] }

end PlanningTask

namespace StuckItemCleanupTask

/-- `stuck_item_task.py` `on_start` (lines 78–88): before posting the
explanatory comment, the `logger.info` call at line 80 receives
`self.item.updated_at` as an eagerly evaluated argument.
`item_fields` is the field list of the item’s `models.py` dataclass
(`issueFields` for a stuck issue, `pullRequestFields` for a stuck PR);
neither defines `updated_at`, so the attribute access raises
`AttributeError` and the hook never reaches `post_comment`.  The `.ok`
branch — the §4.3 explanatory comment — is reachable only in the
counterfactual where the dataclass has the field.  (The module also
fails to import at all; see `stuckItemImportOk` under C6.) -/
def on_start (bot : String) (threshold_hours : Nat) (item_fields : List String)
    (s : ItemState) : Except String ItemState :=
  if "updated_at" ∈ item_fields then
    .ok { s with comments := s.comments ++ [⟨bot, "This item has been `in-progress` for over " ++ toString threshold_hours ++ " hours with no activity. The worker likely stopped unexpectedly. Resetting to allow retry.", "", none, none⟩] }
  else
    .error "AttributeError: object has no attribute 'updated_at'"

end StuckItemCleanupTask

/-! ### Uniform dispatcher over the runnable task variants (for the
§4.3 table).

StuckItemCleanupTask is deliberately not a `TaskVariant`: in this
revision its module fails to import and its `on_start` raises
`AttributeError` before any tracker mutation (see
`StuckItemCleanupTask.on_start` and the C6 theorem), so its §4.3 table
row is unrealizable; the C1 theorem states that error fact separately. -/

/-- The four task variants whose reconciliation hooks can actually run
in this revision. -/
inductive TaskVariant
  | issueTask | prReview | conflictRes | planning
  deriving Repr, DecidableEq

def variantOnStart (bot : String) : TaskVariant → ItemState → ItemState
  | .issueTask => IssueTask.on_start
  | .prReview => PRReviewTask.on_start
  | .conflictRes => ConflictResolutionTask.on_start
  | .planning => PlanningTask.on_start

def variantOnComplete (bot summary : String) : TaskVariant → ItemState → ItemState
  | .issueTask => IssueTask.on_complete bot summary
  | .prReview => PRReviewTask.on_complete bot summary
  | .conflictRes => ConflictResolutionTask.on_complete bot summary
  | .planning => PlanningTask.on_complete bot summary

def variantOnFailure (bot err : String) : TaskVariant → ItemState → ItemState
  | .issueTask => IssueTask.on_failure bot err
  | .prReview => PRReviewTask.on_failure bot err
  | .conflictRes => ConflictResolutionTask.on_failure bot err
  | .planning => PlanningTask.on_failure bot err

/-! ### §4.3 table, written from the spec's words (label columns). -/

def tableOnStartLabels : TaskVariant → List String → List String
  | .issueTask => fun ls => addLabel "in-progress" (removeLabel "ready-for-development" ls)
  | .prReview => addLabel "in-progress"
  | .conflictRes => addLabel "in-progress"
  | .planning => id

def tableOnCompleteLabels : TaskVariant → List String → List String
  | .issueTask => removeLabel "in-progress"
  | .prReview => removeLabel "in-progress"
  | .conflictRes => removeLabel "in-progress"
  | .planning => id

def tableOnFailureLabels : TaskVariant → List String → List String
  | .issueTask => fun ls => addLabel "ready-for-development" (removeLabel "in-progress" ls)
  | .prReview => removeLabel "in-progress"
  | .conflictRes => removeLabel "in-progress"
  | .planning => id

/-- The three reconciliation hooks, for indexing the §4.3 table. -/
inductive Hook
  | start | complete | failure
  deriving Repr, DecidableEq

/-- Comment column of the §4.3 table for the runnable variants: how
many comments each hook posts (`1` = posts a comment, `0` = none). -/
def tableCommentCount : TaskVariant → Hook → Nat
  | .issueTask, .start => 0
  | .issueTask, .complete => 1
  | .issueTask, .failure => 1
  | .prReview, .start => 0
  | .prReview, .complete => 1
  | .prReview, .failure => 1
  | .conflictRes, .start => 0
  | .conflictRes, .complete => 1
  | .conflictRes, .failure => 1
  | .planning, .start => 0
  | .planning, .complete => 1
  | .planning, .failure => 1

def variantHook (bot summary err : String) : Hook → TaskVariant → ItemState → ItemState
  | .start => variantOnStart bot
  | .complete => variantOnComplete bot summary
  | .failure => variantOnFailure bot err

/-- The active-label portion of the state a variant's `discover` query
selects items from (IssueTask: labelled `ready-for-development`;
PlanningTask: `ready-for-planning`; PR variants: no active label). -/
def eligibleStart : TaskVariant → List String → Prop
  | .issueTask => fun ls =>
      "ready-for-development" ∈ ls ∧ "in-progress" ∉ ls ∧ "ready-for-planning" ∉ ls
  | .prReview => fun ls =>
      "ready-for-development" ∉ ls ∧ "in-progress" ∉ ls ∧ "ready-for-planning" ∉ ls
  | .conflictRes => fun ls =>
      "ready-for-development" ∉ ls ∧ "in-progress" ∉ ls ∧ "ready-for-planning" ∉ ls
  | .planning => fun ls =>
      "ready-for-development" ∉ ls ∧ "in-progress" ∉ ls ∧ "ready-for-planning" ∈ ls

instance (v : TaskVariant) (ls : List String) : Decidable (eligibleStart v ls) := by
  cases v <;> simp [eligibleStart] <;> infer_instance

theorem ip_ne_rfp : ("in-progress" : String) ≠ "ready-for-planning" := by decide

theorem ip_ne_rfd : ("in-progress" : String) ≠ "ready-for-development" := by decide

theorem rfp_ne_ip : ("ready-for-planning" : String) ≠ "in-progress" := by decide

theorem rfp_ne_rfd : ("ready-for-planning" : String) ≠ "ready-for-development" := by decide

theorem rfd_ne_ip : ("ready-for-development" : String) ≠ "in-progress" := by decide

theorem rfd_ne_rfp : ("ready-for-development" : String) ≠ "ready-for-planning" := by decide

/-- Each runnable variant's hooks perform exactly the label mutation
and comment posting documented in the §4.3 table. -/
theorem variant_matches_table (bot summary err : String) (v : TaskVariant) (t : ItemState) :
    (variantOnStart bot v t).labels = tableOnStartLabels v t.labels
    ∧ (variantOnComplete bot summary v t).labels = tableOnCompleteLabels v t.labels
    ∧ (variantOnFailure bot err v t).labels = tableOnFailureLabels v t.labels
    ∧ ∀ hk : Hook, (variantHook bot summary err hk v t).comments.length
        = t.comments.length + tableCommentCount v hk := by
  cases v <;>
    refine ⟨rfl, rfl, rfl, fun hk => ?_⟩ <;>
    cases hk <;>
    simp [variantHook, variantOnStart, variantOnComplete, variantOnFailure,
      IssueTask.on_start, IssueTask.on_complete, IssueTask.on_failure,
      PRReviewTask.on_start, PRReviewTask.on_complete, PRReviewTask.on_failure,
      ConflictResolutionTask.on_start, ConflictResolutionTask.on_complete,
      ConflictResolutionTask.on_failure,
      PlanningTask.on_start, PlanningTask.on_complete, PlanningTask.on_failure,
      tableCommentCount]

/-- From a variant's discovery-eligible start state, each of `on_start`,
`on_start; on_complete` and `on_start; on_failure` leaves the item with
at most one of the three active labels. -/
theorem variant_activeCount_le_one (bot summary err : String) (v : TaskVariant)
    (s : ItemState) (h : eligibleStart v s.labels) :
    countActive ((variantOnStart bot v s).labels) ≤ 1
    ∧ countActive ((variantOnComplete bot summary v (variantOnStart bot v s)).labels) ≤ 1
    ∧ countActive ((variantOnFailure bot err v (variantOnStart bot v s)).labels) ≤ 1 := by
  cases v <;>
    obtain ⟨h1, h2, h3⟩ := h <;>
    refine ⟨?_, ?_, ?_⟩ <;>
    simp [variantOnStart, variantOnComplete, variantOnFailure,
      IssueTask.on_start, IssueTask.on_complete, IssueTask.on_failure,
      PRReviewTask.on_start, PRReviewTask.on_complete, PRReviewTask.on_failure,
      ConflictResolutionTask.on_start, ConflictResolutionTask.on_complete,
      ConflictResolutionTask.on_failure,
      PlanningTask.on_start, PlanningTask.on_complete, PlanningTask.on_failure,
      countActive, mem_addLabel, mem_removeLabel,
      ip_ne_rfp, ip_ne_rfd, rfp_ne_ip, rfp_ne_rfd, rfd_ne_ip, rfd_ne_rfp,
      h1, h2, h3]

/-- C1 (amended): for each of the four runnable task variants applied
to an item in its discovery-eligible label state, `(on_start,
on_complete)` and `(on_start, on_failure)` produce exactly the net
label-set change and comment postings documented in the §4.3 table, and
no hook sequence ever leaves the item holding more than one of the
active labels {`in-progress`, `ready-for-planning`,
`ready-for-development`} — the item may, however, legitimately end with
none of them.  The StuckItemCleanupTask rows of the table are
unrealizable in this revision: its `on_start` raises `AttributeError`
reading `self.item.updated_at` (a field neither `models.py` dataclass
has) before posting anything, for a stuck issue and a stuck PR alike. -/
theorem C1_label_reconciliation (v : TaskVariant) (bot summary err : String)
    (s : ItemState) (h : eligibleStart v s.labels) :
    ((variantOnStart bot v s).labels = tableOnStartLabels v s.labels
      ∧ (variantOnComplete bot summary v (variantOnStart bot v s)).labels
          = tableOnCompleteLabels v (tableOnStartLabels v s.labels)
      ∧ (variantOnFailure bot err v (variantOnStart bot v s)).labels
          = tableOnFailureLabels v (tableOnStartLabels v s.labels)
      ∧ ∀ hk : Hook, (variantHook bot summary err hk v s).comments.length
          = s.comments.length + tableCommentCount v hk)
    ∧ countActive ((variantOnStart bot v s).labels) ≤ 1
    ∧ countActive ((variantOnComplete bot summary v (variantOnStart bot v s)).labels) ≤ 1
    ∧ countActive ((variantOnFailure bot err v (variantOnStart bot v s)).labels) ≤ 1
    ∧ (∀ t : ItemState, ∀ th : Nat,
        StuckItemCleanupTask.on_start bot th issueFields t
          = .error "AttributeError: object has no attribute 'updated_at'"
        ∧ StuckItemCleanupTask.on_start bot th pullRequestFields t
          = .error "AttributeError: object has no attribute 'updated_at'") := by
  obtain ⟨hc1, hc2, hc3⟩ := variant_activeCount_le_one bot summary err v s h
  obtain ⟨t1, -, -, t4⟩ := variant_matches_table bot summary err v s
  obtain ⟨-, u2, u3, -⟩ := variant_matches_table bot summary err v (variantOnStart bot v s)
  refine ⟨⟨t1, ?_, ?_, t4⟩, hc1, hc2, hc3, ?_⟩
  · rw [u2, t1]
  · rw [u3, t1]
  · intro t th
    constructor <;>
    · unfold StuckItemCleanupTask.on_start
      rw [if_neg (by decide)]

/-- C1 counterexample to the claim as stated: a PR with no workflow
labels (the state `PRReviewTask.discover` selects) put through
`on_start` then `on_complete` ends with none of the three active
labels, so the variant does leave the item "simultaneously lacking all
of {in-progress, ready-for-planning, ready-for-development}". -/
theorem C1_counterexample :
    countActive ((variantOnComplete "loony-bot" "done" .prReview
      (variantOnStart "loony-bot" .prReview ⟨[], []⟩)).labels) = 0 := by
  decide

/-- Witness for `C1_label_reconciliation` at a concrete input: issue
labelled `ready-for-development` handled by `IssueTask`. -/
theorem C1_label_reconciliation_witness :
    eligibleStart .issueTask ["ready-for-development"]
    ∧ (((variantOnStart "b" .issueTask ⟨["ready-for-development"], []⟩).labels
          = tableOnStartLabels .issueTask ["ready-for-development"]
        ∧ (variantOnComplete "b" "ok" .issueTask
            (variantOnStart "b" .issueTask ⟨["ready-for-development"], []⟩)).labels
            = tableOnCompleteLabels .issueTask (tableOnStartLabels .issueTask ["ready-for-development"])
        ∧ (variantOnFailure "b" "e" .issueTask
            (variantOnStart "b" .issueTask ⟨["ready-for-development"], []⟩)).labels
            = tableOnFailureLabels .issueTask (tableOnStartLabels .issueTask ["ready-for-development"])
        ∧ ∀ hk : Hook, (variantHook "b" "ok" "e" hk .issueTask ⟨["ready-for-development"], []⟩).comments.length
            = ([] : List Comment).length + tableCommentCount .issueTask hk)
      ∧ countActive ((variantOnStart "b" .issueTask ⟨["ready-for-development"], []⟩).labels) ≤ 1
      ∧ countActive ((variantOnComplete "b" "ok" .issueTask
          (variantOnStart "b" .issueTask ⟨["ready-for-development"], []⟩)).labels) ≤ 1
      ∧ countActive ((variantOnFailure "b" "e" .issueTask
          (variantOnStart "b" .issueTask ⟨["ready-for-development"], []⟩)).labels) ≤ 1
      ∧ (∀ t : ItemState, ∀ th : Nat,
          StuckItemCleanupTask.on_start "b" th issueFields t
            = .error "AttributeError: object has no attribute 'updated_at'"
          ∧ StuckItemCleanupTask.on_start "b" th pullRequestFields t
            = .error "AttributeError: object has no attribute 'updated_at'")) :=
  ⟨by decide, C1_label_reconciliation .issueTask "b" "ok" "e"
    ⟨["ready-for-development"], []⟩ (by decide)⟩

/-! ## Orchestrator dispatch (`orchestrator.py` `Orchestrator.dispatch`).

The tracker-side effects of one dispatch, as a trace of the task-hook
invocations, driven by the two external outcomes that can vary: whether
the version-control sync raises (`git.ensure_main_up_to_date`, a
`checkout main` + `pull --ff-only` that raises `CalledProcessError` on
failure) and what `agent.execute` produces.  In the source, `on_start`
and the git sync run *before* the `try` block; only `agent.execute` and
the completion/failure hooks are inside it. -/

/-- `models.py` `TaskResult`. -/
structure TaskResult where
  success : Bool
  output : String
  summary : String
  deriving Repr, DecidableEq

/-- One tracker-side hook invocation made by `dispatch`. -/
inductive TrackerCall
  | on_start
  | on_complete (summary : String)
  | on_failure (err : String)
  deriving Repr, DecidableEq

/-- The observable outcome of one `dispatch` call: the hook invocations
in order, and the exception that escaped `dispatch`, if any. -/
structure DispatchOutcome where
  calls : List TrackerCall
  uncaught : Option String
  deriving Repr, DecidableEq

namespace Orchestrator

/-- `orchestrator.py` lines 117–140.  `syncErr` is the error raised by
the pre-`try` git phase (`current_branch` / `has_uncommitted_changes` /
`ensure_main_up_to_date`), `none` when it succeeds; `execOutcome` is
`agent.execute`'s result (`Except.error` = a raised exception, whose
message `on_failure` receives; a `TaskResult` with `success := false`
is routed to `on_failure` with `RuntimeError(result.summary)`). -/
def dispatch (syncErr : Option String) (execOutcome : Except String TaskResult) :
    DispatchOutcome :=
  let calls := [TrackerCall.on_start]
  match syncErr with
  | some e => { calls := calls, uncaught := some e }
  | none =>
    match execOutcome with
    | .ok result =>
      if result.success then
        { calls := calls ++ [.on_complete result.summary], uncaught := none }
      else
        { calls := calls ++ [.on_failure result.summary], uncaught := none }
    | .error e => { calls := calls ++ [.on_failure e], uncaught := none }

end Orchestrator

/-- C2 counterexample: when `git.ensure_main_up_to_date` raises between
`on_start` and the backend call, `dispatch` makes no `on_failure` call —
the exception escapes `dispatch` with only `on_start` executed,
contradicting the claim that a sync-step error is routed to
`task.on_failure`. -/
theorem C2_counterexample :
    (Orchestrator.dispatch (some "fatal: couldn't find remote ref main")
        (.ok ⟨true, "", "done"⟩)).calls = [TrackerCall.on_start]
    ∧ (∀ e, TrackerCall.on_failure e ∉
        (Orchestrator.dispatch (some "fatal: couldn't find remote ref main")
          (.ok ⟨true, "", "done"⟩)).calls)
    ∧ (Orchestrator.dispatch (some "fatal: couldn't find remote ref main")
        (.ok ⟨true, "", "done"⟩)).uncaught = some "fatal: couldn't find remote ref main" := by
  refine ⟨rfl, ?_, rfl⟩
  intro e
  simp [Orchestrator.dispatch]

/-- C2 (amended): `dispatch` calls `task.on_complete` exactly when the
git sync succeeded and the backend result is successful, and calls
`task.on_failure` when the backend reports failure or raises; but an
error raised by the version-control phase that runs between `on_start`
and the `try` block (including `ensure_main_up_to_date`) propagates out
of `dispatch` without any `on_failure` call, leaving only `on_start`
executed. -/
theorem C2_dispatch_routing (execOutcome : Except String TaskResult) :
    (∀ result, execOutcome = .ok result → result.success = true →
      Orchestrator.dispatch none execOutcome
        = ⟨[.on_start, .on_complete result.summary], none⟩)
    ∧ (∀ result, execOutcome = .ok result → result.success = false →
      Orchestrator.dispatch none execOutcome
        = ⟨[.on_start, .on_failure result.summary], none⟩)
    ∧ (∀ e, execOutcome = .error e →
      Orchestrator.dispatch none execOutcome
        = ⟨[.on_start, .on_failure e], none⟩)
    ∧ (∀ e, Orchestrator.dispatch (some e) execOutcome
        = ⟨[.on_start], some e⟩) := by
  refine ⟨?_, ?_, ?_, ?_⟩
  · rintro ⟨s, o, m⟩ rfl hs
    simp at hs
    simp [Orchestrator.dispatch, hs]
  · rintro ⟨s, o, m⟩ rfl hs
    simp at hs
    simp [Orchestrator.dispatch, hs]
  · rintro e rfl
    simp [Orchestrator.dispatch]
  · intro e
    cases execOutcome <;> simp [Orchestrator.dispatch]

/-- Witness for `C2_dispatch_routing`: a successful backend run with a
clean sync yields exactly `on_start` then `on_complete`. -/
theorem C2_dispatch_routing_witness :
    (Except.ok ⟨true, "out", "done"⟩ : Except String TaskResult) = .ok ⟨true, "out", "done"⟩
    ∧ Orchestrator.dispatch none (.ok ⟨true, "out", "done"⟩)
        = ⟨[.on_start, .on_complete "done"], none⟩ :=
  ⟨rfl, (C2_dispatch_routing (.ok ⟨true, "out", "done"⟩)).1 ⟨true, "out", "done"⟩ rfl rfl⟩

/-! ## Orchestrator discovery (`orchestrator.py` `TASK_CLASSES`,
`Orchestrator._find_work`). -/

/-- Name and `priority` attribute of one registered task class. -/
structure TaskClassInfo where
  className : String
  priority : Nat
  deriving Repr, DecidableEq

/-- Python's stable `sorted`, as insertion sort: an element is placed
after every existing element that is strictly smaller, preserving the
original order among equals. -/
def insertSorted {α : Type} (lt : α → α → Bool) (c : α) : List α → List α
  | [] => [c]
  | d :: ds => if lt d c then d :: insertSorted lt c ds else c :: d :: ds

def sortedBy {α : Type} (lt : α → α → Bool) : List α → List α
  | [] => []
  | c :: cs => insertSorted lt c (sortedBy lt cs)

/-- `orchestrator.py` lines 24–27: the registered task classes (conflict
resolution 10, PR review 1, planning 30, issue 40 — the stuck-item
cleanup class is not registered) sorted by ascending `priority`. -/
def TASK_CLASSES : List TaskClassInfo :=
  sortedBy (fun a b => a.priority < b.priority)
    [⟨"ConflictResolutionTask", 10⟩, ⟨"PRReviewTask", 1⟩,
     ⟨"PlanningTask", 30⟩, ⟨"IssueTask", 40⟩]

/-! `_find_work` walks classes in `TASK_CLASSES` order; within a class it
pulls tasks from the class's lazy `discover` iterator one at a time, and
for each pulled task asks each agent `can_handle` in configuration
order, returning on the first acceptance.  We model a tick's potential
discovery output as one task list per class (in `TASK_CLASSES` order)
and agents as acceptance predicates; `scanClass` additionally counts how
many tasks were pulled from the iterator. -/

/-- Inner loop of `_find_work`: index of the first agent whose
`can_handle` accepts `t`. -/
def firstAccepting {τ : Type} (agents : List (τ → Bool)) (t : τ) : Option Nat :=
  agents.findIdx? (fun a => a t)

/-- One class's `for task in task_class.discover(...)` loop: the
`(task, agent)` pair returned (if any) and the number of tasks pulled
from the iterator. -/
def scanClass {τ : Type} (agents : List (τ → Bool)) : List τ → Option (τ × Nat) × Nat
  | [] => (none, 0)
  | t :: ts =>
    match firstAccepting agents t with
    | some i => (some (t, i), 1)
    | none =>
      let r := scanClass agents ts
      (r.1, r.2 + 1)

/-- `Orchestrator._find_work`: first class whose scan returns a pair
wins; `none` when no agent accepts any discovered task. -/
def findWork {τ : Type} (agents : List (τ → Bool)) : List (List τ) → Option (τ × Nat)
  | [] => none
  | c :: cs =>
    match (scanClass agents c).1 with
    | some r => some r
    | none => findWork agents cs

/-- Number of tasks pulled from each class's `discover` iterator during
one `_find_work` call: classes after the winning one are never
consumed. -/
def discoverCalls {τ : Type} (agents : List (τ → Bool)) : List (List τ) → List Nat
  | [] => []
  | c :: cs =>
    match scanClass agents c with
    | (some _, n) => n :: cs.map (fun _ => 0)
    | (none, n) => n :: discoverCalls agents cs

theorem scanClass_none {τ : Type} (agents : List (τ → Bool)) (c : List τ)
    (h : ∀ k (hk : k < c.length), firstAccepting agents (c.get ⟨k, hk⟩) = none) :
    scanClass agents c = (none, c.length) := by
  induction c with
  | nil => rfl
  | cons t ts ih =>
    have h0 := h 0 (Nat.succ_pos _)
    simp only [List.get] at h0
    have ih' := ih (fun k hk => h (k + 1) (Nat.succ_lt_succ hk))
    simp [scanClass, h0, ih']

theorem scanClass_found {τ : Type} (agents : List (τ → Bool)) (c : List τ) (k m : Nat)
    (hk : k < c.length)
    (hm : firstAccepting agents (c.get ⟨k, hk⟩) = some m)
    (hfirst : ∀ k' (hk' : k' < k),
      firstAccepting agents (c.get ⟨k', Nat.lt_trans hk' hk⟩) = none) :
    scanClass agents c = (some (c.get ⟨k, hk⟩, m), k + 1) := by
  induction c generalizing k with
  | nil => exact absurd hk (Nat.not_lt_zero _)
  | cons t ts ih =>
    cases k with
    | zero =>
      simp only [List.get] at hm ⊢
      simp [scanClass, hm]
    | succ k' =>
      have h0 := hfirst 0 (Nat.succ_pos _)
      simp only [List.get] at h0 hm ⊢
      have ih' := ih k' (Nat.lt_of_succ_lt_succ hk) hm
        (fun k'' hk'' => hfirst (k'' + 1) (Nat.succ_lt_succ hk''))
      simp [scanClass, h0, ih']

theorem getD_map_zeros {α : Type} (l : List α) (n : Nat) (hn : n < l.length) :
    (l.map (fun _ => (0 : Nat))).getD n 999 = 0 := by
  induction l generalizing n with
  | nil => exact absurd hn (Nat.not_lt_zero _)
  | cons a l ih =>
    cases n with
    | zero => rfl
    | succ n' => simpa using ih n' (Nat.lt_of_succ_lt_succ hn)

/-- C3: `_find_work` walks registered task classes in ascending priority
order (`TASK_CLASSES` sorts by `priority`, giving PR review 1, conflict
10, planning 30, issue 40), lazily consuming each class's `discover`
iterator; the first discovered task accepted by an agent's `can_handle`
wins, iteration stops immediately, and classes after the winning one
have zero tasks pulled from their iterators in that tick. -/
theorem C3_priority_short_circuit {τ : Type} (agents : List (τ → Bool))
    (classes : List (List τ)) (i k m : Nat)
    (hi : i < classes.length)
    (hprev : ∀ j (hj : j < i), ∀ t ∈ classes.get ⟨j, Nat.lt_trans hj hi⟩,
      firstAccepting agents t = none)
    (hk : k < (classes.get ⟨i, hi⟩).length)
    (hm : firstAccepting agents ((classes.get ⟨i, hi⟩).get ⟨k, hk⟩) = some m)
    (hfirst : ∀ k' (hk' : k' < k),
      firstAccepting agents ((classes.get ⟨i, hi⟩).get ⟨k', Nat.lt_trans hk' hk⟩) = none) :
    findWork agents classes = some ((classes.get ⟨i, hi⟩).get ⟨k, hk⟩, m)
    ∧ (discoverCalls agents classes).length = classes.length
    ∧ (discoverCalls agents classes).getD i 999 = k + 1
    ∧ (∀ j, i < j → j < classes.length → (discoverCalls agents classes).getD j 999 = 0)
    ∧ TASK_CLASSES.map TaskClassInfo.priority = [1, 10, 30, 40] := by
  induction classes generalizing i with
  | nil => exact absurd hi (Nat.not_lt_zero _)
  | cons c cs ih =>
    cases i with
    | zero =>
      have hsf := scanClass_found agents c k m hk hm hfirst
      refine ⟨?_, ?_, ?_, ?_, by decide⟩
      · simp [findWork, hsf]
      · simp [discoverCalls, hsf]
      · simp [discoverCalls, hsf]
      · intro j h0j hj
        cases j with
        | zero => exact absurd h0j (by omega)
        | succ j' =>
          simp only [discoverCalls, hsf, List.getD_cons_succ]
          exact getD_map_zeros cs j' (by simpa using hj)
    | succ i' =>
      have h0 : ∀ t ∈ c, firstAccepting agents t = none := hprev 0 (Nat.succ_pos _)
      have hsn := scanClass_none agents c (fun k' hk' => h0 _ (c.get_mem k' hk'))
      have ih' := ih i' (Nat.lt_of_succ_lt_succ hi)
        (fun j hj => hprev (j + 1) (Nat.succ_lt_succ hj)) hk hm hfirst
      refine ⟨?_, ?_, ?_, ?_, ih'.2.2.2.2⟩
      · simp only [findWork, hsn]
        exact ih'.1
      · simp only [discoverCalls, hsn, List.length_cons]
        rw [ih'.2.1]
      · simp only [discoverCalls, hsn, List.getD_cons_succ]
        exact ih'.2.2.1
      · intro j hij hj
        cases j with
        | zero => exact absurd hij (by omega)
        | succ j' =>
          simp only [discoverCalls, hsn, List.getD_cons_succ]
          exact ih'.2.2.2.1 j' (by omega) (by simpa using hj)

/-- Witness for `C3_priority_short_circuit`: three discovery queues;
the middle class yields the handleable task `7`, so the scan returns it
with agent 0 and the third class's iterator is never consumed. -/
theorem C3_priority_short_circuit_witness :
    findWork [fun t : Nat => t == 7] [[], [7], [9]] = some (7, 0)
    ∧ (discoverCalls [fun t : Nat => t == 7] [[], [7], [9]]).getD 2 999 = 0 := by
  have hi : 1 < ([[], [7], [9]] : List (List Nat)).length := by decide
  have hp : ∀ j (hj : j < 1), ∀ t ∈ ([[], [7], [9]] : List (List Nat)).get ⟨j, Nat.lt_trans hj hi⟩,
      firstAccepting [fun t : Nat => t == 7] t = none := by
    intro j hj t ht
    cases j with
    | zero => simp [List.get] at ht
    | succ j' => exact absurd hj (by omega)
  have hk : 0 < (([[], [7], [9]] : List (List Nat)).get ⟨1, hi⟩).length := by
    exact Nat.one_pos
  have hm : firstAccepting [fun t : Nat => t == 7]
      ((([[], [7], [9]] : List (List Nat)).get ⟨1, hi⟩).get ⟨0, hk⟩) = some 0 := by rfl
  have hf : ∀ k' (hk' : k' < 0), firstAccepting [fun t : Nat => t == 7]
      ((([[], [7], [9]] : List (List Nat)).get ⟨1, hi⟩).get ⟨k', Nat.lt_trans hk' hk⟩) = none :=
    fun k' hk' => absurd hk' (Nat.not_lt_zero _)
  obtain ⟨h1, -, -, h4, -⟩ :=
    C3_priority_short_circuit [fun t : Nat => t == 7] [[], [7], [9]] 1 0 0 hi hp hk hm hf
  exact ⟨h1, h4 2 (by decide) (by decide)⟩

/-! ## PR review discovery (`tasks/pr_review_task.py`). -/

/-- Python's `<` on strings: lexicographic comparison by code point
(the order `list.sort(key=lambda c: c.created_at)` uses). -/
def strLtChars : List Char → List Char → Bool
  | [], [] => false
  | [], _ :: _ => true
  | _ :: _, [] => false
  | a :: as, b :: bs => if a < b then true else if b < a then false else strLtChars as bs

def timeLt (a b : String) : Bool := strLtChars a.data b.data

def timeLe (a b : String) : Bool := !(timeLt b a)

/-- `models.py` `PullRequest`: number, branch, title, new-comments list
(these are its only fields). -/
structure PullRequest where
  number : Nat
  branch : String
  title : String
  new_comments : List Comment := []
  deriving Repr, DecidableEq

/-- One element of `github.list_open_prs()`: the raw PR data dict with
the fields requested by `--json number,headRefName,title,comments,
reviews,labels,mergeable`, plus the separately fetched inline review
comments.  Reviews are represented by their author/body/submittedAt
projection, which is all `_assemble_comments` reads. -/
structure PRItem where
  number : Nat
  headRefName : String
  title : String
  labels : List String
  mergeable : String
  comments : List Comment := []
  reviews : List Comment := []
  inline : List Comment := []
  deriving Repr, DecidableEq

namespace PRReviewTask

/-- `_assemble_comments`: general comments + reviews with a truthy body
+ inline comments, sorted (stably) by creation timestamp. -/
def assemble_comments (item : PRItem) : List Comment :=
  sortedBy (fun a b => timeLt a.created_at b.created_at)
    (item.comments ++ item.reviews.filter (fun r => r.body != "") ++ item.inline)

/-- The `for i, c in enumerate(comments)` loop of `_new_since_bot`,
carrying the running index and the `bot_last_idx` accumulator
(initially `-1`). -/
def botLastIdxAux (bot_name : String) : List Comment → Nat → Int → Int
  | [], _, acc => acc
  | c :: cs, i, acc =>
      botLastIdxAux bot_name cs (i + 1) (if c.author == bot_name then (i : Int) else acc)

/-- `_new_since_bot`'s scan for the bot's last comment index. -/
def bot_last_idx (comments : List Comment) (bot_name : String) : Int :=
  botLastIdxAux bot_name comments 0 (-1)

/-- `pr_review_task.py` `_new_since_bot`: non-bot comments after the
bot's last comment (all non-bot comments when the bot never wrote). -/
def _new_since_bot (comments : List Comment) (bot_name : String) : List Comment :=
  if bot_last_idx comments bot_name = -1 then
    comments.filter (fun c => c.author != bot_name)
  else
    (comments.drop ((bot_last_idx comments bot_name).toNat + 1)).filter
      (fun c => c.author != bot_name)

/-- `pr_review_task.py` `discover`: for each open PR not labelled
`in-progress`, assemble its comments and yield a task exactly when
comments newer than the bot's last one exist. -/
def discover (items : List PRItem) (bot_name : String) : List PullRequest :=
  items.filterMap (fun item =>
    if "in-progress" ∈ item.labels then none
    else
      let all_comments := assemble_comments item
      let new_comments := _new_since_bot all_comments bot_name
      if new_comments.isEmpty then none
      else some ⟨item.number, item.headRefName, item.title, new_comments⟩)

end PRReviewTask

/-- Spec-side definition of the watermark: the position of the *last*
comment authored by the bot ("author identity scan from the end of the
list — captures the last occurrence"). -/
def lastBotOccurrence (bot : String) : List Comment → Option Nat
  | [] => none
  | c :: cs =>
    match lastBotOccurrence bot cs with
    | some k => some (k + 1)
    | none => if c.author = bot then some 0 else none

theorem lastBotOccurrence_none (bot : String) (cs : List Comment)
    (h : lastBotOccurrence bot cs = none) : ∀ c ∈ cs, c.author ≠ bot := by
  induction cs with
  | nil => simp
  | cons c0 cs ih =>
    unfold lastBotOccurrence at h
    cases hcs : lastBotOccurrence bot cs with
    | some k => rw [hcs] at h; simp at h
    | none =>
      rw [hcs] at h
      by_cases hb : c0.author = bot
      · simp [hb] at h
      · intro c hc
        rcases List.mem_cons.mp hc with rfl | hc2
        · exact hb
        · exact ih hcs c hc2

theorem lastBotOccurrence_get (bot : String) (cs : List Comment) (k : Nat)
    (h : lastBotOccurrence bot cs = some k) :
    ∃ hk : k < cs.length, (cs.get ⟨k, hk⟩).author = bot := by
  induction cs generalizing k with
  | nil => simp [lastBotOccurrence] at h
  | cons c0 cs ih =>
    unfold lastBotOccurrence at h
    cases hcs : lastBotOccurrence bot cs with
    | some k' =>
      rw [hcs] at h
      obtain rfl : k' + 1 = k := by injection h
      obtain ⟨hk', hget⟩ := ih k' hcs
      exact ⟨Nat.succ_lt_succ hk', hget⟩
    | none =>
      rw [hcs] at h
      by_cases hb : c0.author = bot
      · simp only [hb, if_pos rfl] at h
        obtain rfl : (0 : Nat) = k := by injection h
        exact ⟨Nat.succ_pos _, hb⟩
      · simp [hb] at h

theorem lastBotOccurrence_drop (bot : String) (cs : List Comment) (k : Nat)
    (h : lastBotOccurrence bot cs = some k) :
    ∀ c ∈ cs.drop (k + 1), c.author ≠ bot := by
  induction cs generalizing k with
  | nil => simp [lastBotOccurrence] at h
  | cons c0 cs ih =>
    unfold lastBotOccurrence at h
    cases hcs : lastBotOccurrence bot cs with
    | some k' =>
      rw [hcs] at h
      obtain rfl : k' + 1 = k := by injection h
      simpa using ih k' hcs
    | none =>
      rw [hcs] at h
      by_cases hb : c0.author = bot
      · simp only [hb, if_pos rfl] at h
        obtain rfl : (0 : Nat) = k := by injection h
        simpa using lastBotOccurrence_none bot cs hcs
      · simp [hb] at h

theorem botLastIdxAux_spec (bot : String) (cs : List Comment) (i : Nat) (acc : Int) :
    PRReviewTask.botLastIdxAux bot cs i acc =
      match lastBotOccurrence bot cs with
      | some k => (i : Int) + k
      | none => acc := by
  induction cs generalizing i acc with
  | nil => rfl
  | cons c0 cs ih =>
    simp only [PRReviewTask.botLastIdxAux]
    rw [ih]
    cases hcs : lastBotOccurrence bot cs with
    | some k =>
      simp only [lastBotOccurrence, hcs]
      push_cast
      ring
    | none =>
      by_cases hb : c0.author = bot
      · simp [lastBotOccurrence, hcs, hb]
      · simp [lastBotOccurrence, hcs, hb]

theorem lastBotOccurrence_eq_none (bot : String) (cs : List Comment)
    (h : ∀ c ∈ cs, c.author ≠ bot) : lastBotOccurrence bot cs = none := by
  induction cs with
  | nil => rfl
  | cons c0 cs ih =>
    unfold lastBotOccurrence
    rw [ih (fun c hc => h c (List.mem_cons_of_mem c0 hc))]
    simp [h c0 (List.mem_cons_self c0 cs)]

theorem new_since_bot_of_no_bot (cs : List Comment) (bot : String)
    (h : ∀ c ∈ cs, c.author ≠ bot) :
    PRReviewTask._new_since_bot cs bot = cs := by
  have hlo := lastBotOccurrence_eq_none bot cs h
  have hidx : PRReviewTask.bot_last_idx cs bot = -1 := by
    unfold PRReviewTask.bot_last_idx
    rw [botLastIdxAux_spec]
    simp [hlo]
  unfold PRReviewTask._new_since_bot
  rw [if_pos hidx]
  exact List.filter_eq_self.mpr (fun a ha => by simpa using h a ha)

/-- C4: when the comment list (sorted by timestamp) contains a comment
by the bot, `_new_since_bot` returns exactly the comments strictly after
the *last* bot-authored position — equivalently, that whole suffix,
every element of which is non-bot-authored — and `discover` yields a
task for an open PR not labelled `in-progress` iff that list is
non-empty. -/
theorem C4_watermark (cs : List Comment) (bot : String)
    (hsorted : cs.Pairwise (fun a b => timeLe a.created_at b.created_at = true))
    (hbot : ∃ c ∈ cs, c.author = bot) :
    (∃ k, ∃ hk : k < cs.length,
      lastBotOccurrence bot cs = some k
      ∧ (cs.get ⟨k, hk⟩).author = bot
      ∧ (∀ c ∈ cs.drop (k + 1), c.author ≠ bot)
      ∧ PRReviewTask._new_since_bot cs bot
          = (cs.drop (k + 1)).filter (fun c => c.author != bot)
      ∧ PRReviewTask._new_since_bot cs bot = cs.drop (k + 1))
    ∧ ∀ item : PRItem, "in-progress" ∉ item.labels →
        (PRReviewTask.discover [item] bot ≠ []
          ↔ PRReviewTask._new_since_bot (PRReviewTask.assemble_comments item) bot ≠ []) := by
  constructor
  · obtain ⟨c, hc, hcb⟩ := hbot
    cases hlo : lastBotOccurrence bot cs with
    | none => exact absurd hcb (lastBotOccurrence_none bot cs hlo c hc)
    | some k =>
      obtain ⟨hk, hauthor⟩ := lastBotOccurrence_get bot cs k hlo
      have hafter := lastBotOccurrence_drop bot cs k hlo
      have hidx : PRReviewTask.bot_last_idx cs bot = (k : Int) := by
        unfold PRReviewTask.bot_last_idx
        rw [botLastIdxAux_spec]
        simp [hlo]
      have hne : ¬ PRReviewTask.bot_last_idx cs bot = -1 := by
        rw [hidx]; omega
      have hres : PRReviewTask._new_since_bot cs bot
          = (cs.drop (k + 1)).filter (fun c => c.author != bot) := by
        unfold PRReviewTask._new_since_bot
        rw [if_neg hne, hidx]
        simp
      have hfil : (cs.drop (k + 1)).filter (fun c => c.author != bot) = cs.drop (k + 1) :=
        List.filter_eq_self.mpr (fun a ha => by simpa using hafter a ha)
      exact ⟨k, hk, rfl, hauthor, hafter, hres, hres.trans hfil⟩
  · intro item hip
    by_cases hemp : (PRReviewTask._new_since_bot (PRReviewTask.assemble_comments item) bot).isEmpty
    · simp only [PRReviewTask.discover, List.filterMap_cons, List.filterMap_nil, if_neg hip,
        if_pos hemp]
      simp only [List.isEmpty_iff] at hemp
      simp [hemp]
    · simp only [PRReviewTask.discover, List.filterMap_cons, List.filterMap_nil, if_neg hip,
        if_neg hemp]
      simp only [List.isEmpty_iff] at hemp
      simp [hemp]

/-- Witness for `C4_watermark`: two comments, the bot's first, a user
reply second; the returned list is exactly the suffix after the bot's
comment. -/
theorem C4_watermark_witness :
    (([⟨"bot", "ack", "1", none, none⟩, ⟨"alice", "fix this", "2", none, none⟩] :
        List Comment).Pairwise (fun a b => timeLe a.created_at b.created_at = true)
      ∧ ∃ c ∈ ([⟨"bot", "ack", "1", none, none⟩, ⟨"alice", "fix this", "2", none, none⟩] :
        List Comment), c.author = "bot")
    ∧ PRReviewTask._new_since_bot
        [⟨"bot", "ack", "1", none, none⟩, ⟨"alice", "fix this", "2", none, none⟩] "bot"
        = [⟨"alice", "fix this", "2", none, none⟩] := by
  have hs : ([⟨"bot", "ack", "1", none, none⟩, ⟨"alice", "fix this", "2", none, none⟩] :
      List Comment).Pairwise (fun a b => timeLe a.created_at b.created_at = true) := by
    refine List.Pairwise.cons ?_ (List.pairwise_singleton _ _)
    intro b hb
    rcases List.mem_singleton.mp hb with rfl
    decide
  have hb : ∃ c ∈ ([⟨"bot", "ack", "1", none, none⟩,
      ⟨"alice", "fix this", "2", none, none⟩] : List Comment), c.author = "bot" := by
    exact ⟨_, List.mem_cons_self _ _, rfl⟩
  obtain ⟨⟨k, hk, hlo, -, -, -, hdrop⟩, -⟩ :=
    C4_watermark [⟨"bot", "ack", "1", none, none⟩, ⟨"alice", "fix this", "2", none, none⟩]
      "bot" hs hb
  have hsame : lastBotOccurrence "bot"
      [⟨"bot", "ack", "1", none, none⟩, ⟨"alice", "fix this", "2", none, none⟩]
      = some 0 := by decide
  rw [hsame] at hlo
  injection hlo with h
  obtain rfl : k = 0 := h.symm
  exact ⟨⟨hs, hb⟩, hdrop⟩

/-- C10: when no comment in the list is authored by the bot,
`_new_since_bot` returns every comment whose author differs from the
bot — i.e. the whole list — so an open PR not labelled `in-progress` on
which the bot never commented yields a review task whenever it has at
least one comment. -/
theorem C10_no_watermark (cs : List Comment) (bot : String)
    (h : ∀ c ∈ cs, c.author ≠ bot) :
    PRReviewTask._new_since_bot cs bot = cs.filter (fun c => c.author != bot)
    ∧ PRReviewTask._new_since_bot cs bot = cs
    ∧ ∀ item : PRItem, "in-progress" ∉ item.labels →
        (∀ c ∈ PRReviewTask.assemble_comments item, c.author ≠ bot) →
        PRReviewTask.assemble_comments item ≠ [] →
        PRReviewTask.discover [item] bot ≠ [] := by
  have hmain := new_since_bot_of_no_bot cs bot h
  refine ⟨?_, hmain, ?_⟩
  · rw [hmain]
    exact (List.filter_eq_self.mpr (fun a ha => by simpa using h a ha)).symm
  · intro item hip hall hne
    have hmain' := new_since_bot_of_no_bot (PRReviewTask.assemble_comments item) bot hall
    have hemp : (PRReviewTask._new_since_bot
        (PRReviewTask.assemble_comments item) bot).isEmpty = false := by
      rw [hmain']
      exact List.isEmpty_eq_false.mpr hne
    simp only [PRReviewTask.discover, List.filterMap_cons, List.filterMap_nil,
      if_neg hip, hemp]
    simp

/-- Witness for `C10_no_watermark`: one user comment, no bot comment —
the PR yields a review task. -/
theorem C10_no_watermark_witness :
    (∀ c ∈ ([⟨"alice", "please fix", "1", none, none⟩] : List Comment), c.author ≠ "bot")
    ∧ PRReviewTask._new_since_bot [⟨"alice", "please fix", "1", none, none⟩] "bot"
        = [⟨"alice", "please fix", "1", none, none⟩] := by
  have h : ∀ c ∈ ([⟨"alice", "please fix", "1", none, none⟩] : List Comment),
      c.author ≠ "bot" := by decide
  exact ⟨h, (C10_no_watermark [⟨"alice", "please fix", "1", none, none⟩] "bot" h).2.1⟩

/-! ## `models.py` dataclass field lists and Python call semantics.

`models.py` defines `Issue(number, title, body)` and
`PullRequest(number, branch, title, new_comments)`; a dataclass call
passing any other keyword raises `TypeError` at the call site, and an
attribute access outside these fields raises `AttributeError`. -/

/-- Python dataclass keyword binding: the call succeeds only when every
passed keyword names a dataclass field. -/
def dataclassCallOk (fields passed : List String) : Bool :=
  passed.all fields.contains

/-- The keyword arguments `conflict_task.py` lines 36–41 pass to
`PullRequest(...)` when yielding. -/
def conflictYieldKeywords : List String := ["number", "branch", "title", "mergeable"]

/-- The keyword arguments `stuck_item_task.py` lines 52–58 pass to
`PullRequest(...)` for a stuck PR. -/
def stuckPRYieldKeywords : List String :=
  ["number", "branch", "title", "mergeable", "updated_at"]

/-- The names defined at the top level of `github.py` (its imports,
module-level constant and class) — the names that
`from loony_dev.github import X` can resolve. -/
def githubModuleNames : List String :=
  ["annotations", "json", "logging", "subprocess", "Comment", "Issue",
   "truncate_for_log", "logger", "REQUIRED_LABELS", "GitHubClient"]

/-- `stuck_item_task.py` line 8, `from loony_dev.github import
_parse_datetime`: resolvable only if `github.py` defines that name. -/
def stuckItemImportOk : Bool := githubModuleNames.contains "_parse_datetime"

namespace ConflictResolutionTask

/-- `conflict_task.py` `discover`: for each open PR, skip when labelled
`in-progress` or when its mergeable state is not `CONFLICTING`;
otherwise yield `ConflictResolutionTask(PullRequest(number=…,
branch=…, title=…, mergeable=…))` — the keyword binding of that
`PullRequest(...)` call is checked against `models.py`'s field list, as
Python does when the generator is consumed. -/
def discover : List PRItem → Except String (List PullRequest)
  | [] => .ok []
  | item :: rest =>
    if "in-progress" ∈ item.labels then discover rest
    else if item.mergeable ≠ "CONFLICTING" then discover rest
    else if dataclassCallOk pullRequestFields conflictYieldKeywords then
      (discover rest).map (fun ts => ⟨item.number, item.headRefName, item.title, []⟩ :: ts)
    else
      .error "TypeError: PullRequest.__init__() got an unexpected keyword argument 'mergeable'"

end ConflictResolutionTask

/-- C7 (code bug): for PR #7 with mergeable state `CONFLICTING` and no
`in-progress` label, `discover` does not yield a task — consuming the
generator raises `TypeError`, because it calls `PullRequest(...,
mergeable=...)` and `models.py`'s `PullRequest` has no `mergeable`
field.  The second half of the scenario (a `MERGEABLE` PR yields
nothing) does hold. -/
theorem C7_conflict_discover_crashes :
    ConflictResolutionTask.discover
        [⟨7, "fix-7", "Fix the bug", [], "CONFLICTING", [], [], []⟩]
      = .error "TypeError: PullRequest.__init__() got an unexpected keyword argument 'mergeable'"
    ∧ ConflictResolutionTask.discover
        [⟨8, "feat-8", "Add feature", [], "MERGEABLE", [], [], []⟩] = .ok []
    ∧ "mergeable" ∉ pullRequestFields
    ∧ dataclassCallOk pullRequestFields conflictYieldKeywords = false := by
  refine ⟨rfl, rfl, by decide, by decide⟩

/-- C6 (code bug): `StuckItemCleanupTask.discover` cannot run against
this revision's own modules: importing `stuck_item_task.py` fails
because `github.py` defines no `_parse_datetime`, and even ignoring
that, `models.py`'s `Issue` has no `updated_at` attribute for the
staleness comparison to read, and the stuck-PR yield passes
`mergeable=`/`updated_at=` keywords `PullRequest` does not accept. -/
theorem C6_stuck_discovery_broken :
    stuckItemImportOk = false
    ∧ "_parse_datetime" ∉ githubModuleNames
    ∧ "updated_at" ∉ issueFields
    ∧ dataclassCallOk pullRequestFields stuckPRYieldKeywords = false := by
  refine ⟨rfl, by decide, by decide, rfl⟩

/-! ## Issue discovery and the issue #42 scenario (`tasks/issue_task.py`). -/

/-- Python `str.strip()` on ASCII whitespace, in kernel-evaluable form:
drop whitespace from both ends of the character list. -/
def pyStrip (s : String) : String :=
  ⟨((s.data.dropWhile Char.isWhitespace).reverse.dropWhile Char.isWhitespace).reverse⟩

/-- One open issue as the tracker holds it: the `models.py` `Issue`
snapshot fields plus the label set and comment list the tracker stores
for it. -/
structure TrackerIssue where
  number : Nat
  title : String
  body : String
  item : ItemState
  deriving Repr, DecidableEq

/-- The tracker state seen by issue discovery: the repository's open
issues. -/
abbrev TrackerState := List TrackerIssue

/-- Apply an `ItemState` transformation to issue `n` — how `add_label`
/ `remove_label` / `post_comment` address one tracked item by number. -/
def updateItem (n : Nat) (f : ItemState → ItemState) : TrackerState → TrackerState :=
  List.map (fun i => if i.number = n then { i with item := f i.item } else i)

namespace IssueTask

/-- `issue_task.py` `_find_plan`: the body of the most recent bot
comment starting with `PLAN_MARKER`, marker stripped and whitespace
trimmed; `none` when no such comment exists. -/
def _find_plan (comments : List Comment) (bot_name : String) : Option String :=
  comments.foldl
    (fun plan c =>
      if c.author == bot_name && PLAN_MARKER.data.isPrefixOf c.body.data then
        some (pyStrip ⟨c.body.data.drop PLAN_MARKER.length⟩)
      else plan)
    none

/-- An `IssueTask(issue, plan=…)` value. -/
structure Model where
  issue : TrackerIssue
  plan : Option String
  deriving Repr, DecidableEq

/-- `issue_task.py` `discover`: one task per open issue labelled
`ready-for-development` (the `github.list_issues` §6 boundary), with
the approved plan attached when present; it always yields. -/
def discover (st : TrackerState) (bot_name : String) : List Model :=
  (st.filter (fun i => "ready-for-development" ∈ i.item.labels)).map
    (fun i => ⟨i, _find_plan i.item.comments bot_name⟩)

/-- The tracker-visible effect of a successful `Orchestrator.dispatch`
of an issue task: `on_start`, the backend call (out of scope), then
`on_complete` with the result summary. -/
def dispatchSuccess (t : Model) (bot summary : String) (st : TrackerState) : TrackerState :=
  updateItem t.issue.number (on_complete bot summary)
    (updateItem t.issue.number on_start st)

end IssueTask

/-- The §8 scenario issue: #42, labelled `ready-for-development`, with
one prior bot comment `"<!-- loony-plan --> Do X then Y"`. -/
def issue42 : TrackerIssue :=
  ⟨42, "Add retry logic", "Please add retry logic to the client.",
   ⟨["ready-for-development"],
    [⟨"loony-bot", "<!-- loony-plan --> Do X then Y", "2024-01-01T00:00:00Z", none, none⟩]⟩⟩

/-- C8: discovery on issue #42 yields one `IssueTask` whose plan is
`"Do X then Y"`; after a successful dispatch the issue carries neither
`in-progress` nor `ready-for-development` and has a new comment
beginning `"Implementation complete."`. -/
theorem C8_issue42_scenario :
    IssueTask.discover [issue42] "loony-bot" = [⟨issue42, some "Do X then Y"⟩]
    ∧ ∀ i ∈ IssueTask.dispatchSuccess ⟨issue42, some "Do X then Y"⟩ "loony-bot"
        "All done." [issue42],
      "in-progress" ∉ i.item.labels
      ∧ "ready-for-development" ∉ i.item.labels
      ∧ ∃ c ∈ i.item.comments, "Implementation complete.".data.isPrefixOf c.body.data := by
  constructor
  · decide
  · decide

/-! ## Supervisor: repository filtering (`supervisor.py`
`_matches_pattern` / `filter_repos`).

`fnmatch.fnmatch` on Linux is case-sensitive glob matching: `*` matches
any sequence (including `/` — fnmatch is not path-aware), `?` any
single character, `[...]` a character class with ranges and `[!...]`
negation; a `[` with no closing `]` is literal. -/

/-- Bracket-class member matching (the regex-class semantics
`fnmatch.translate` produces): `a-b` ranges, literal `-` at either
end, plain members otherwise. -/
def classMatches : List Char → Char → Bool
  | a :: '-' :: b :: rest, c => (a ≤ c && c ≤ b) || classMatches rest c
  | a :: rest, c => a == c || classMatches rest c
  | [], _ => false

/-- Split a character list at the first `]`. -/
def breakAtRB : List Char → Option (List Char × List Char)
  | [] => none
  | ']' :: t => some ([], t)
  | c :: t => (breakAtRB t).map (fun p => (c :: p.1, p.2))

/-- Parse the bracket class after a `[`, as `fnmatch.translate` does: a
leading `!` negates, a `]` right after the (possible) `!` is a literal
member, and with no closing `]` the whole `[` is literal (`none`). -/
def splitClass (cs : List Char) : Option (Bool × List Char × List Char) :=
  let p := match cs with
    | '!' :: t => (true, t)
    | _ => (false, cs)
  match p.2 with
  | ']' :: t =>
    match breakAtRB t with
    | some q => some (p.1, ']' :: q.1, q.2)
    | none => none
  | _ =>
    match breakAtRB p.2 with
    | some q => some (p.1, q.1, q.2)
    | none => none

/-- Glob matching with explicit fuel (every recursive call strictly
shrinks pattern + subject, so `|pattern| + |subject| + 1` fuel is never
exhausted); fuel keeps the definition structurally recursive and hence
kernel-evaluable. -/
def fnmatchFuel : Nat → List Char → List Char → Bool
  | 0, _, _ => false
  | fuel + 1, pat, s =>
    match pat, s with
    | [], t => t.isEmpty
    | '*' :: ps, t =>
      fnmatchFuel fuel ps t ||
        (match t with
         | [] => false
         | _ :: t' => fnmatchFuel fuel ('*' :: ps) t')
    | '?' :: ps, _ :: t' => fnmatchFuel fuel ps t'
    | '?' :: _, [] => false
    | '[' :: ps, c :: t' =>
      (match splitClass ps with
       | some q => (classMatches q.2.1 c != q.1) && fnmatchFuel fuel q.2.2 t'
       | none => (c == '[') && fnmatchFuel fuel ps t')
    | '[' :: _, [] => false
    | p :: ps, c :: t' => (p == c) && fnmatchFuel fuel ps t'
    | _ :: _, [] => false

/-- `fnmatch.fnmatch(name, pattern)`, case-sensitive as on Linux. -/
def fnmatch (name pattern : String) : Bool :=
  fnmatchFuel (pattern.length + name.length + 1) pattern.data name.data

/-- Python `repo.split("/", 1)[-1]`: everything after the first `/`, or
the whole string when it contains none. -/
def splitFirstSlashTail (s : List Char) : List Char :=
  match s.dropWhile (fun c => c != '/') with
  | [] => s
  | _ :: rest => rest

/-- `supervisor.py` `_matches_pattern`: patterns containing `/` match
the full `owner/repo` string; patterns without match the name portion
only. -/
def _matches_pattern (repo pattern : String) : Bool :=
  if pattern.data.contains '/' then fnmatch repo pattern
  else fnmatch ⟨splitFirstSlashTail repo.data⟩ pattern

/-- `supervisor.py` `filter_repos`: keep repos matching at least one
include pattern (when any are given), then drop repos matching at
least one exclude pattern.  An empty list models Python's falsy
`None`/`[]` arguments. -/
def filter_repos (repos include_patterns exclude_patterns : List String) : List String :=
  let result := repos
  let result := if include_patterns.isEmpty then result
    else result.filter (fun r => include_patterns.any (fun p => _matches_pattern r p))
  if exclude_patterns.isEmpty then result
  else result.filter (fun r => !(exclude_patterns.any (fun p => _matches_pattern r p)))

example : fnmatch "a/x" "a/*" = true := by decide
example : fnmatch "a/y" "*/y" = true := by decide
example : fnmatch "b/z" "a/*" = false := by decide
example : fnmatch "x" "[a-z]" = true := by decide
example : fnmatch "x" "[!a-z]" = false := by decide

/-- C9: `filter_repos` is the include-then-exclude filter over
`_matches_pattern`; `_matches_pattern` dispatches on whether the
pattern contains `/` (full-string match vs name-portion match); and the
concrete §8 scenario holds. -/
theorem C9_filter_repos (repos inc exc : List String) :
    filter_repos repos inc exc
      = repos.filter (fun r =>
          (inc.isEmpty || inc.any (fun p => _matches_pattern r p))
          && !(exc.any (fun p => _matches_pattern r p)))
    ∧ (∀ r p : String, p.data.contains '/' = true →
        _matches_pattern r p = fnmatch r p)
    ∧ (∀ r p : String, p.data.contains '/' = false →
        _matches_pattern r p = fnmatch ⟨splitFirstSlashTail r.data⟩ p)
    ∧ filter_repos ["a/x", "a/y", "b/z"] ["a/*"] ["*/y"] = ["a/x"] := by
  refine ⟨?_, ?_, ?_, by decide⟩
  · unfold filter_repos
    by_cases hinc : inc.isEmpty <;> by_cases hexc : exc.isEmpty
    · obtain rfl := List.isEmpty_iff.mp hinc
      obtain rfl := List.isEmpty_iff.mp hexc
      simp
    · obtain rfl := List.isEmpty_iff.mp hinc
      simp [hexc]
    · obtain rfl := List.isEmpty_iff.mp hexc
      simp [hinc]
    · simp only [if_neg hinc, if_neg hexc, List.filter_filter]
      congr 1
      funext r
      by_cases h1 : inc.any (fun p => _matches_pattern r p) <;>
        by_cases h2 : exc.any (fun p => _matches_pattern r p) <;>
        simp [h1, h2, hinc]
  · intro r p h
    unfold _matches_pattern
    rw [h]
    simp
  · intro r p h
    unfold _matches_pattern
    rw [h]
    simp

/-- Witness for `C9_filter_repos`: the slash dispatch evaluated at a
concrete repo and pattern. -/
theorem C9_filter_repos_witness :
    ("a/*".data.contains '/' = true)
    ∧ _matches_pattern "a/x" "a/*" = fnmatch "a/x" "a/*" :=
  ⟨by decide, (C9_filter_repos ["a/x"] ["a/*"] []).2.1 "a/x" "a/*" (by decide)⟩

/-! ## Supervisor: worker restart backoff (`supervisor.py`
`WorkerProcess`, `launch_worker`, health-check phase lines 358–391).

Delays are modelled as exact rationals (`min_restart_delay` and
`max_restart_delay` are the float CLI options; the computation is
`min(min_delay * 2 ** restart_count, max_delay)` with an exact integer
power). -/

/-- `supervisor.py` `WorkerProcess` — the scheduling-relevant fields;
the process handle, paths and monotonic start time carry no restart
state. -/
structure WorkerProcess where
  repo : String
  restart_count : Nat := 0
  deriving Repr, DecidableEq

/-- `launch_worker`: a fresh worker, `restart_count` defaulting to 0. -/
def launch_worker (repo : String) : WorkerProcess := { repo := repo }

/-- Line 368: `delay = min(min_restart_delay * (2 ** wp.restart_count),
max_restart_delay)`. -/
def restartDelay (min_restart_delay max_restart_delay : ℚ) (restart_count : Nat) : ℚ :=
  min (min_restart_delay * 2 ^ restart_count) max_restart_delay

/-- Lines 380–389: the restarted worker replaces the old entry with
`restart_count = wp.restart_count + 1`. -/
def restartWorker (wp : WorkerProcess) : WorkerProcess :=
  { wp with restart_count := wp.restart_count + 1 }

/-- The supervisor's `workers` map (keyed by repository). -/
abbrev Workers := List (String × WorkerProcess)

/-- Discovery phase lines 307–339: start workers only for active repos
not already in the map (`if repo in workers: continue`), so an existing
entry — and its restart counter — is never replaced by discovery; the
counter can only return to 0 via removal (`workers.pop`) followed by a
later fresh `launch_worker`. -/
def startNewRepos (active : List String) (ws : Workers) : Workers :=
  active.foldl
    (fun acc repo =>
      if acc.any (fun q => q.1 == repo) then acc
      else acc ++ [(repo, launch_worker repo)])
    ws

theorem mem_startNewRepos (active : List String) (ws : Workers) :
    ∀ q ∈ ws, q ∈ startNewRepos active ws := by
  induction active generalizing ws with
  | nil => intro q hq; exact hq
  | cons repo rest ih =>
    intro q hq
    unfold startNewRepos
    simp only [List.foldl_cons]
    by_cases h : ws.any (fun q => q.1 == repo)
    · rw [if_pos h]
      exact ih ws q hq
    · rw [if_neg h]
      exact ih _ q (List.mem_append_left _ hq)

theorem restartWorker_iterate (n : Nat) (wp : WorkerProcess) :
    (restartWorker^[n] wp).restart_count = wp.restart_count + n := by
  induction n with
  | zero => rfl
  | succ n ih =>
    rw [Function.iterate_succ_apply', restartWorker, ih]
    rfl

/-- C5: for every `n`, the delay the health-check computes before a
worker's `(n+1)`-th restart is `min(min_restart_delay * 2^n,
max_restart_delay)`; for non-negative `min_restart_delay` the delay
sequence is non-decreasing and always bounded by `max_restart_delay`;
each restart increments the counter by exactly one; and the discovery
phase never replaces an existing worker entry, so the counter resets
only when a repo is removed from the map and later re-added by a fresh
`launch_worker` (which starts at 0). -/
theorem C5_restart_backoff (minD maxD : ℚ) (n : Nat) (r : String)
    (hmin : 0 ≤ minD) :
    restartDelay minD maxD ((restartWorker^[n] (launch_worker r)).restart_count)
      = min (minD * 2 ^ n) maxD
    ∧ restartDelay minD maxD n ≤ restartDelay minD maxD (n + 1)
    ∧ restartDelay minD maxD n ≤ maxD
    ∧ (restartWorker^[n] (launch_worker r)).restart_count = n
    ∧ (∀ wp : WorkerProcess, (restartWorker wp).restart_count = wp.restart_count + 1)
    ∧ (launch_worker r).restart_count = 0
    ∧ (∀ active ws, ∀ q ∈ ws, q ∈ startNewRepos active ws) := by
  have hcount : (restartWorker^[n] (launch_worker r)).restart_count = n := by
    rw [restartWorker_iterate]
    simp [launch_worker]
  refine ⟨by rw [hcount]; rfl, ?_, ?_, hcount, fun wp => rfl, rfl, mem_startNewRepos⟩
  · unfold restartDelay
    refine min_le_min ?_ le_rfl
    refine mul_le_mul_of_nonneg_left ?_ hmin
    exact pow_le_pow_right₀ one_le_two (Nat.le_succ n)
  · exact min_le_right _ _

/-- Witness for `C5_restart_backoff` at `min_restart_delay = 3`,
`max_restart_delay = 40`, two prior restarts. -/
theorem C5_restart_backoff_witness :
    (0 : ℚ) ≤ 3
    ∧ restartDelay 3 40 ((restartWorker^[2] (launch_worker "a/x")).restart_count)
        = min ((3 : ℚ) * 2 ^ 2) 40
    ∧ restartDelay 3 40 2 ≤ restartDelay 3 40 3
    ∧ restartDelay 3 40 2 ≤ 40 :=
  ⟨by norm_num,
   (C5_restart_backoff 3 40 2 "a/x" (by norm_num)).1,
   (C5_restart_backoff 3 40 2 "a/x" (by norm_num)).2.1,
   (C5_restart_backoff 3 40 2 "a/x" (by norm_num)).2.2.1⟩
